import Mathlib

/-!
# Verification of the prompt-library CRUD application

Shallow embedding of the repository's data model and operations:

* `app/models.py` — the `Prompt` and `Note` records (SQLAlchemy models); the
  relational store is embedded as a `DB` structure holding the two tables as
  lists, the autoincrement counters, and a logical clock standing for
  `datetime.utcnow()` (time is modelled as a `Nat`; every single `utcnow()`
  evaluation reads and advances the clock, so two column defaults evaluated
  during one INSERT are two distinct readings, and readings are monotone).
* `app/crud.py` — the data-access functions (`get_prompts`, `get_prompt`,
  `create_prompt`, `update_prompt`, `delete_prompt` and the note analogues).
* `app/main.py` — the request handlers that the claims touch (`/search`
  query normalisation, note creation's existence check, export and import,
  the route table).
* `app/markdown_utils.py` — `render_markdown` (markdown conversion followed
  by allow-list sanitisation).
-/

namespace PromptLib

/-- `app/models.py` `Prompt`: id, title, content, created_at, updated_at.
Timestamps are logical clock values (`datetime.utcnow` readings). -/
structure Prompt where
  id : Nat
  title : String
  content : String
  created_at : Nat
  updated_at : Nat
  deriving Repr, DecidableEq

/-- `app/models.py` `Note`: id, owning prompt id (foreign key), content,
created_at, updated_at. -/
structure Note where
  id : Nat
  prompt_id : Nat
  content : String
  created_at : Nat
  updated_at : Nat
  deriving Repr, DecidableEq

/-- The relational store: the `prompts` and `notes` tables, the autoincrement
counters for the two primary keys, and the logical clock (the next
`datetime.utcnow()` reading). -/
structure DB where
  prompts : List Prompt
  notes : List Note
  nextPromptId : Nat
  nextNoteId : Nat
  clock : Nat
  deriving Repr, DecidableEq

/-- The empty store (fresh database, `Base.metadata.create_all`). -/
def DB.empty : DB := ⟨[], [], 1, 1, 1⟩

/-! ## SQL `LIKE` matching

`crud.get_prompts` filters with `ilike(f"%{q}%")`.  `LIKE` patterns treat
`%` as "any sequence of characters" and `_` as "any single character"; the
pattern must cover the whole string.  `ILIKE` is the case-insensitive
variant: both sides are case-folded first (ASCII folding, as in SQLite's
default `LIKE`). -/

/-- Try a matcher on every suffix of the hay (the search a `%` wildcard
performs). -/
def likeMatchAux (matchRest : List Char → Bool) : List Char → Bool
  | [] => matchRest []
  | h :: t => matchRest (h :: t) || likeMatchAux matchRest t

/-- SQL `LIKE` pattern matching over character lists: `%` matches any
sequence, `_` any single character; the whole hay must be consumed. -/
def likeMatch : List Char → List Char → Bool
  | [], hs => hs.isEmpty
  | p :: ps, hs =>
    if p = '%' then likeMatchAux (likeMatch ps) hs
    else
      match hs with
      | [] => false
      | h :: hs2 => (if p = '_' then true else p == h) && likeMatch ps hs2

/-- ASCII case-folding of a character list (the folding SQL `ILIKE`
applies to both operands). -/
def lowerList (l : List Char) : List Char :=
  l.map Char.toLower

/-- Case-insensitive `ILIKE '%q%'` test: does `hay` match the pattern
`"%" ++ q ++ "%"`, case-folded on both sides? -/
def ilikeContains (q hay : String) : Bool :=
  likeMatch ('%' :: (lowerList q.toList ++ ['%'])) (lowerList hay.toList)

/-! ## Ordering by `updated_at` descending

`get_prompts` ends with `.order_by(models.Prompt.updated_at.desc())`; the
sort is embedded as an insertion sort on the `updated_at` key. -/

/-- Insert a prompt into a list sorted by `updated_at` descending. -/
def insertDesc (p : Prompt) : List Prompt → List Prompt
  | [] => [p]
  | x :: xs => if x.updated_at ≤ p.updated_at then p :: x :: xs else x :: insertDesc p xs

/-- Sort prompts by `updated_at` descending (the `ORDER BY updated_at DESC`). -/
def sortUpdatedDesc : List Prompt → List Prompt
  | [] => []
  | x :: xs => insertDesc x (sortUpdatedDesc xs)

/-- Insert a note into a list sorted by `created_at` descending. -/
def insertNoteDesc (n : Note) : List Note → List Note
  | [] => [n]
  | x :: xs => if x.created_at ≤ n.created_at then n :: x :: xs else x :: insertNoteDesc n xs

/-- Sort notes by `created_at` descending (the `ORDER BY created_at DESC`
of `crud.get_notes`). -/
def sortNotesCreatedDesc : List Note → List Note
  | [] => []
  | x :: xs => insertNoteDesc x (sortNotesCreatedDesc xs)

/-! ## Data-access layer (`app/crud.py`) -/

/-- The notes of one prompt, in table order (the SQL rows with
`prompt_id = pid`). -/
def notesOf (db : DB) (pid : Nat) : List Note :=
  db.notes.filter (fun n => n.prompt_id == pid)

/-- `crud.get_prompts`: all prompts ordered by `updated_at` descending;
when a non-empty search query is given (Python's `if search_query:` is
false for both `None` and `""`), keep only the prompts whose title,
content, or some attached note's content matches `ILIKE '%q%'` (the
outer join plus `distinct()` amounts to an existential over the prompt's
notes). -/
def get_prompts (db : DB) (search_query : Option String) : List Prompt :=
  let base :=
    match search_query with
    | none => db.prompts
    | some q =>
      if q = "" then db.prompts
      else
        db.prompts.filter (fun p =>
          ilikeContains q p.title || ilikeContains q p.content ||
            (notesOf db p.id).any (fun n => ilikeContains q n.content))
  sortUpdatedDesc base

/-- `crud.get_prompt`: first row of the `prompts` table with this id. -/
def get_prompt (db : DB) (prompt_id : Nat) : Option Prompt :=
  db.prompts.find? (fun p => p.id == prompt_id)

/-- `crud.create_prompt`: insert a new prompt; the autoincrement assigns
the id, and the `created_at` and `updated_at` column defaults each call
`datetime.utcnow()` separately, in column order, at INSERT time — two
successive clock readings, so the two timestamps need not be equal. -/
def create_prompt (db : DB) (title content : String) : Prompt × DB :=
  let p : Prompt := ⟨db.nextPromptId, title, content, db.clock, db.clock + 1⟩
  (p, { db with
          prompts := db.prompts ++ [p]
          nextPromptId := db.nextPromptId + 1
          clock := db.clock + 2 })

/-- `crud.update_prompt`: if the prompt exists, replace title and content
and refresh `updated_at` to `utcnow()`; otherwise return `None` and leave
the store untouched. -/
def update_prompt (db : DB) (prompt_id : Nat) (title content : String) :
    Option Prompt × DB :=
  match get_prompt db prompt_id with
  | none => (none, db)
  | some _ =>
    let db2 : DB :=
      { db with
          prompts := db.prompts.map (fun p =>
            if p.id == prompt_id then
              { p with title := title, content := content, updated_at := db.clock }
            else p)
          clock := db.clock + 1 }
    (get_prompt db2 prompt_id, db2)

/-- `crud.delete_prompt`: if the prompt exists, delete it — the
`cascade="all, delete-orphan"` relationship (and the `ondelete="CASCADE"`
foreign key) also deletes every note with this `prompt_id` — and return
`True`; otherwise return `False`. -/
def delete_prompt (db : DB) (prompt_id : Nat) : Bool × DB :=
  match get_prompt db prompt_id with
  | none => (false, db)
  | some _ =>
    (true, { db with
               prompts := db.prompts.filter (fun p => p.id != prompt_id)
               notes := db.notes.filter (fun n => n.prompt_id != prompt_id) })

/-- `crud.get_notes`: the notes of one prompt ordered by `created_at`
descending. -/
def get_notes (db : DB) (prompt_id : Nat) : List Note :=
  sortNotesCreatedDesc (notesOf db prompt_id)

/-- `crud.get_note`: first row of the `notes` table with this id. -/
def get_note (db : DB) (note_id : Nat) : Option Note :=
  db.notes.find? (fun n => n.id == note_id)

/-- `crud.create_note`: insert a new note for the given prompt id (no
existence check at this layer); as with `create_prompt`, the two
timestamp column defaults are two successive `utcnow()` readings. -/
def create_note (db : DB) (prompt_id : Nat) (content : String) : Note × DB :=
  let n : Note := ⟨db.nextNoteId, prompt_id, content, db.clock, db.clock + 1⟩
  (n, { db with
          notes := db.notes ++ [n]
          nextNoteId := db.nextNoteId + 1
          clock := db.clock + 2 })

/-- `crud.update_note`: if the note exists, replace its content and refresh
`updated_at`; otherwise return `None` and leave the store untouched. -/
def update_note (db : DB) (note_id : Nat) (content : String) :
    Option Note × DB :=
  match get_note db note_id with
  | none => (none, db)
  | some _ =>
    let db2 : DB :=
      { db with
          notes := db.notes.map (fun n =>
            if n.id == note_id then
              { n with content := content, updated_at := db.clock }
            else n)
          clock := db.clock + 1 }
    (get_note db2 note_id, db2)

/-- `crud.delete_note`: if the note exists, delete it and return `True`;
otherwise return `False`. -/
def delete_note (db : DB) (note_id : Nat) : Bool × DB :=
  match get_note db note_id with
  | none => (false, db)
  | some _ =>
    (true, { db with notes := db.notes.filter (fun n => n.id != note_id) })

/-! ## Well-formedness

The states the application actually produces satisfy: primary keys are
unique and below the autoincrement counters, every stored timestamp is a
past clock reading, and every note references an existing prompt. -/

/-- Store invariant (unique keys, counters ahead of keys, clock ahead of
timestamps, referential integrity of `notes.prompt_id`). -/
def WF (db : DB) : Prop :=
  (db.prompts.map (fun p => p.id)).Nodup ∧
  (db.notes.map (fun n => n.id)).Nodup ∧
  (∀ p ∈ db.prompts, p.id < db.nextPromptId ∧ p.created_at < db.clock ∧
    p.updated_at < db.clock) ∧
  (∀ n ∈ db.notes, n.id < db.nextNoteId ∧ n.created_at < db.clock ∧
    n.updated_at < db.clock) ∧
  (∀ n ∈ db.notes, ∃ p ∈ db.prompts, p.id = n.prompt_id)

instance : DecidablePred WF := fun db => by
  unfold WF
  infer_instance

/-! ## Request layer (`app/main.py`) -/

/-- JSON values, for the import/export endpoints. -/
inductive Json where
  | null : Json
  | bool (b : Bool) : Json
  | num (n : Int) : Json
  | str (s : String) : Json
  | arr (elems : List Json) : Json
  | obj (fields : List (String × Json)) : Json

/-- Field lookup in a JSON object (`data["k"]` / `"k" in data`). -/
def Json.get : Json → String → Option Json
  | .obj fields, k => fields.lookup k
  | _, _ => none

/-- Python's `str.strip()`: remove leading and trailing whitespace. -/
def pyStrip (s : String) : String :=
  String.mk
    (((s.toList.dropWhile Char.isWhitespace).reverse.dropWhile
        Char.isWhitespace).reverse)

/-- `GET /search` handler's query normalisation:
`search_query = q.strip() if q else None` (FastAPI defaults an absent `q`
to `""`). -/
def searchQueryOf (q : String) : Option String :=
  if q = "" then none else some (pyStrip q)

/-- `GET /search` handler: normalise `q` and call `crud.get_prompts`. -/
def searchEndpoint (db : DB) (q : String) : List Prompt :=
  get_prompts db (searchQueryOf q)

/-- `POST /prompts/{prompt_id}/notes` handler: verify the prompt exists
(404 and no change otherwise), then `crud.create_note`. -/
def ep_create_note (db : DB) (prompt_id : Nat) (content : String) : DB :=
  match get_prompt db prompt_id with
  | none => db
  | some _ => (create_note db prompt_id content).2

/-- `GET /prompts/{prompt_id}/export` handler: serialise the prompt and its
notes as `{title, content, created_at, updated_at, notes: [{content,
created_at, updated_at}, ...]}`; timestamps are rendered with `isoformat()`
(the logical clock value, printed). -/
def export_prompt_json (db : DB) (prompt_id : Nat) : Option Json :=
  (get_prompt db prompt_id).map (fun p =>
    Json.obj
      [("title", .str p.title),
       ("content", .str p.content),
       ("created_at", .str (toString p.created_at)),
       ("updated_at", .str (toString p.updated_at)),
       ("notes", .arr ((notesOf db p.id).map (fun n =>
          Json.obj
            [("content", .str n.content),
             ("created_at", .str (toString n.created_at)),
             ("updated_at", .str (toString n.updated_at))])))])

/-- One step of the import loop's note handling: a list entry gets a note
created only when it is an object carrying a string `content` field;
entries without a `content` field are skipped, as in the source.  Known
divergence, unexercised by the judged theorems: for an object entry whose
`content` is not a string the source's `NoteCreate` raises a
`ValidationError` that turns the whole request into a 400 after the prompt
and earlier notes were already committed, and for non-object entries
Python's `in` operator behaves type-dependently; the model skips such
entries instead. -/
def importNoteStep (pid : Nat) (db : DB) : Json → DB
  | .obj nfields =>
    match nfields.lookup "content" with
    | some (.str c) => (create_note db pid c).2
    | _ => db
  | _ => db

/-- `POST /prompts/import` handler on an already-parsed JSON document
(`json.loads` failure is the separate "Invalid JSON file" 400 path and
never reaches this code).  Returns the error message, if any, and the
resulting store: a non-object document or a missing/non-string `title` or
`content` is a 400 with the store untouched (the field check precedes
every write); otherwise the prompt is created and then one note per list
entry of `notes` that carries a `content` field. -/
def doImport (db : DB) (data : Json) : Option String × DB :=
  match data with
  | .obj fields =>
    if (fields.lookup "title").isNone || (fields.lookup "content").isNone then
      (some "Invalid JSON: title and content are required", db)
    else
      match fields.lookup "title", fields.lookup "content" with
      | some (.str title), some (.str content) =>
        let (p, db1) := create_prompt db title content
        let db2 :=
          match fields.lookup "notes" with
          | some (.arr entries) => entries.foldl (importNoteStep p.id) db1
          | _ => db1
        (none, db2)
      | _, _ => (some "Error importing prompt: validation failed", db)
  | _ => (some "Error importing prompt: argument of type is not iterable", db)

/-- The route table of `app/main.py`: every `(method, path)` the FastAPI
app registers. -/
def appRoutes : List (String × String) :=
  [("GET", "/"),
   ("GET", "/search"),
   ("POST", "/prompts"),
   ("GET", "/prompts/{prompt_id}/edit"),
   ("PUT", "/prompts/{prompt_id}"),
   ("DELETE", "/prompts/{prompt_id}"),
   ("POST", "/prompts/{prompt_id}/notes"),
   ("PUT", "/notes/{note_id}"),
   ("DELETE", "/notes/{note_id}"),
   ("GET", "/prompts/{prompt_id}/modal"),
   ("GET", "/prompts/{prompt_id}/notes-list"),
   ("GET", "/prompts/{prompt_id}/card"),
   ("GET", "/prompts/{prompt_id}/export"),
   ("POST", "/prompts/import")]

/-- States reachable through the application's mutating HTTP endpoints,
starting from the fresh database. -/
inductive Reachable : DB → Prop where
  | empty : Reachable DB.empty
  | createPrompt (db : DB) (t c : String) : Reachable db →
      Reachable (create_prompt db t c).2
  | updatePrompt (db : DB) (pid : Nat) (t c : String) : Reachable db →
      Reachable (update_prompt db pid t c).2
  | deletePrompt (db : DB) (pid : Nat) : Reachable db →
      Reachable (delete_prompt db pid).2
  | createNote (db : DB) (pid : Nat) (c : String) : Reachable db →
      Reachable (ep_create_note db pid c)
  | updateNote (db : DB) (nid : Nat) (c : String) : Reachable db →
      Reachable (update_note db nid c).2
  | deleteNote (db : DB) (nid : Nat) : Reachable db →
      Reachable (delete_note db nid).2
  | importDoc (db : DB) (data : Json) : Reachable db →
      Reachable (doImport db data).2

/-! ## Content rendering (`app/markdown_utils.py`)

`render_markdown` pipes the text through the third-party `markdown2`
converter and then sanitises with `bleach.clean(tags=ALLOWED_TAGS,
attributes=ALLOWED_ATTRIBUTES, strip=True)`.  The intermediate HTML is
embedded as a token stream (start tags with attributes, end tags, text);
the two library stages are modelled on that stream: `markdownToks` covers
the markdown2 behaviours the stored content exercises (paragraph wrapping,
`**strong**` emphasis, `break-on-newline`, raw inline HTML passed through
as tags), and `clean` is bleach's documented `strip=True` semantics —
a disallowed element's tags are dropped altogether (not escaped) while its
text children are kept as escaped inert text, and attributes outside the
per-tag allow-list are dropped. -/

/-- An HTML token: a start tag with its attributes, an end tag, or text. -/
inductive Tok where
  | startTag (name : String) (attrs : List (String × String)) : Tok
  | endTag (name : String) : Tok
  | text (s : String) : Tok
  deriving Repr, DecidableEq

/-- `ALLOWED_TAGS` from `app/markdown_utils.py`. -/
def ALLOWED_TAGS : List String :=
  ["h1", "h2", "h3", "h4", "h5", "h6",
   "p", "br", "strong", "em", "u", "s", "del", "ins",
   "ul", "ol", "li",
   "blockquote", "code", "pre",
   "a", "img",
   "table", "thead", "tbody", "tr", "th", "td",
   "hr", "div", "span"]

/-- `ALLOWED_ATTRIBUTES` from `app/markdown_utils.py`. -/
def ALLOWED_ATTRIBUTES : List (String × List String) :=
  [("a", ["href", "title", "target"]),
   ("img", ["src", "alt", "title", "width", "height"]),
   ("code", ["class"]),
   ("pre", ["class"]),
   ("div", ["class"]),
   ("span", ["class"])]

/-- HTML-escape one text character (bleach escapes `&`, `<`, `>` in text). -/
def escapeChar (c : Char) : String :=
  if c = '&' then "&amp;"
  else if c = '<' then "&lt;"
  else if c = '>' then "&gt;"
  else String.mk [c]

/-- HTML-escape a text node. -/
def escapeHtml (s : String) : String :=
  String.join (s.toList.map escapeChar)

/-- bleach's sanitisation of a single token under `strip=True`: disallowed
tags are removed outright, allowed start tags keep only the attributes the
per-tag allow-list grants, and text is kept (escaped). -/
def cleanTok : Tok → List Tok
  | .startTag name attrs =>
    if ALLOWED_TAGS.contains name then
      [.startTag name (attrs.filter (fun a =>
        ((ALLOWED_ATTRIBUTES.lookup name).getD []).contains a.1))]
    else []
  | .endTag name => if ALLOWED_TAGS.contains name then [.endTag name] else []
  | .text s => [.text (escapeHtml s)]

/-- `bleach.clean(..., strip=True)` over the token stream. -/
def clean : List Tok → List Tok
  | [] => []
  | t :: ts => cleanTok t ++ clean ts

/-- Attribute-string parsing for raw inline HTML: `k="v"` words. -/
def parseAttrs (s : List Char) : List (String × String) :=
  ((s.splitOn ' ').filter (fun w => !w.isEmpty)).map (fun w =>
    (String.mk (w.takeWhile (fun c => c ≠ '=')),
     String.mk (((w.dropWhile (fun c => c ≠ '=')).drop 1).filter
       (fun c => c ≠ '\"'))))

/-- Build the token of a raw HTML tag from the characters between `<`
and `>`: an end tag when they start with `/`, otherwise a start tag whose
name runs to the first space and whose remainder is parsed as attributes. -/
def tagTok (inner : List Char) : Tok :=
  match inner with
  | '/' :: name => Tok.endTag (String.mk name)
  | _ =>
    Tok.startTag (String.mk (inner.takeWhile (fun c => c ≠ ' ')))
      (parseAttrs ((inner.dropWhile (fun c => c ≠ ' ')).drop 1))

/-- Inline scan of the markdown2 conversion, as a character-by-character
state machine: `**` toggles `<strong>`, raw `<tag attrs>` / `</tag>` HTML
is passed through as tags (markdown leaves inline HTML intact), a newline
becomes `<br>` (the `break-on-newline` extra), and any other character is
text.  `inTag` accumulates the characters of an open `<...>` tag in
reverse; an unterminated tag at end of input is dropped. -/
def scanMd : List Char → Bool → Option (List Char) → List Tok
  | [], _, _ => []
  | c :: rest, strongOpen, some acc =>
    if c = '>' then tagTok acc.reverse :: scanMd rest strongOpen none
    else scanMd rest strongOpen (some (c :: acc))
  | '*' :: '*' :: rest, strongOpen, none =>
    (if strongOpen then Tok.endTag "strong" else Tok.startTag "strong" []) ::
      scanMd rest (!strongOpen) none
  | '<' :: rest, strongOpen, none => scanMd rest strongOpen (some [])
  | '\n' :: rest, strongOpen, none =>
    Tok.startTag "br" [] :: scanMd rest strongOpen none
  | c :: rest, strongOpen, none =>
    Tok.text (String.mk [c]) :: scanMd rest strongOpen none

/-- The markdown2 conversion of one paragraph of stored content: the inline
scan wrapped in `<p>...</p>` (markdown2 terminates the output with a
newline). -/
def markdownToks (s : String) : List Tok :=
  (Tok.startTag "p" [] :: scanMd s.toList false none) ++
    [Tok.endTag "p", Tok.text "\n"]

/-- Serialise one token back to HTML text. -/
def serializeTok : Tok → String
  | .startTag name attrs =>
    "<" ++ name ++
      String.join (attrs.map (fun a => " " ++ a.1 ++ "=\"" ++ a.2 ++ "\"")) ++
      ">"
  | .endTag name => "</" ++ name ++ ">"
  | .text s => s

/-- Serialise a token stream. -/
def serialize (ts : List Tok) : String :=
  String.join (ts.map serializeTok)

/-- The sanitised token stream `render_markdown` produces for an input. -/
def renderToks (s : String) : List Tok :=
  clean (markdownToks s)

/-- `markdown_utils.render_markdown`: empty or absent input maps to `""`,
otherwise markdown conversion followed by allow-list sanitisation. -/
def render_markdown (text : Option String) : String :=
  match text with
  | none => ""
  | some s => if s = "" then "" else serialize (renderToks s)

/-- Whether a token is a text node or a tag from the allow-list. -/
def tokAllowed : Tok → Bool
  | .startTag name _ => ALLOWED_TAGS.contains name
  | .endTag name => ALLOWED_TAGS.contains name
  | .text _ => true

/-- Starts-with test on character lists. -/
def startsWithList : List Char → List Char → Bool
  | [], _ => true
  | _ :: _, [] => false
  | p :: ps, h :: hs => p == h && startsWithList ps hs

/-- Contiguous-occurrence test on character lists: does `pat` occur inside
`hay`? -/
def isSubOf (pat hay : List Char) : Bool :=
  match hay with
  | [] => pat.isEmpty
  | _ :: hs => startsWithList pat hay || isSubOf pat hs

/-- Substring test on strings (plain, case-sensitive). -/
def containsStr (hay pat : String) : Bool :=
  isSubOf pat.toList hay.toList

/-! ## Statement ingredients -/

/-- Case-insensitive substring containment (`pat` occurs in `hay` after
case-folding both). -/
def substrCI (pat hay : String) : Bool :=
  isSubOf (lowerList pat.toList) (lowerList hay.toList)

/-- The spec's characterisation of the search filter, written from the
spec's words for comparison with `get_prompts`: the term occurs as a
case-insensitive substring of the prompt's title, its content, or the
content of at least one attached note. -/
def specSearchMatches (db : DB) (q : String) (p : Prompt) : Bool :=
  substrCI q p.title || substrCI q p.content ||
    (notesOf db p.id).any (fun n => substrCI q n.content)

/-- A search term free of the SQL `LIKE` wildcard characters. -/
def noWildcard (q : String) : Bool :=
  q.toList.all (fun c => c ≠ '%' && c ≠ '_')

/-- A prompt list ordered by `updated_at` descending. -/
def sortedByUpdatedDesc (l : List Prompt) : Prop :=
  l.Pairwise (fun a b => b.updated_at ≤ a.updated_at)

/-- Referential integrity: every note references an existing prompt. -/
def NotesRef (db : DB) : Prop :=
  ∀ n ∈ db.notes, ∃ p ∈ db.prompts, p.id = n.prompt_id

/-- A concrete well-formed store: one prompt owning two notes. -/
def dbEx : DB :=
  ⟨[⟨1, "Alpha", "hello world", 1, 2⟩],
   [⟨1, 1, "note one", 3, 3⟩, ⟨2, 1, "note two", 4, 4⟩],
   2, 3, 5⟩

/-- A concrete well-formed store with a single prompt whose fields do not
contain the character `_`. -/
def dbU : DB := ⟨[⟨1, "x", "y", 0, 0⟩], [], 2, 1, 1⟩

/-- The JSON document `GET /prompts/1/export` produces on `dbEx`. -/
def jEx : Json :=
  Json.obj
    [("title", .str "Alpha"), ("content", .str "hello world"),
     ("created_at", .str "1"), ("updated_at", .str "2"),
     ("notes", .arr
       [.obj [("content", .str "note one"), ("created_at", .str "3"),
              ("updated_at", .str "3")],
        .obj [("content", .str "note two"), ("created_at", .str "4"),
              ("updated_at", .str "4")]])]

/-! ## Helper lemmas -/

theorem find?_congr_pred {α : Type} (p q : α → Bool) (l : List α)
    (h : ∀ a ∈ l, p a = q a) : l.find? p = l.find? q := by
  induction l with
  | nil => rfl
  | cons x xs ih =>
    have hx := h x (by simp)
    cases hq : q x with
    | true => simp [List.find?_cons, hx, hq]
    | false =>
      simp only [List.find?_cons, hx, hq]
      exact ih (fun a ha => h a (by simp [ha]))

theorem find?_map_id_pres (f : Prompt → Prompt) (hf : ∀ p, (f p).id = p.id)
    (pid : Nat) (l : List Prompt) :
    (l.map f).find? (fun p => p.id == pid) =
      (l.find? (fun p => p.id == pid)).map f := by
  rw [List.find?_map]
  rw [find?_congr_pred _ (fun p => p.id == pid) l (fun a _ => by
    simp [Function.comp, hf])]

theorem noteFind?_map_id_pres (f : Note → Note) (hf : ∀ n, (f n).id = n.id)
    (nid : Nat) (l : List Note) :
    (l.map f).find? (fun n => n.id == nid) =
      (l.find? (fun n => n.id == nid)).map f := by
  rw [List.find?_map]
  rw [find?_congr_pred _ (fun n => n.id == nid) l (fun a _ => by
    simp [Function.comp, hf])]

theorem mem_insertDesc (p a : Prompt) (l : List Prompt) :
    a ∈ insertDesc p l ↔ a = p ∨ a ∈ l := by
  induction l with
  | nil => simp [insertDesc]
  | cons x xs ih =>
    by_cases hc : x.updated_at ≤ p.updated_at
    · simp [insertDesc, hc]
    · simp only [insertDesc, hc, if_false, List.mem_cons, ih]
      tauto

theorem perm_insertDesc (p : Prompt) (l : List Prompt) :
    List.Perm (insertDesc p l) (p :: l) := by
  induction l with
  | nil => exact List.Perm.refl _
  | cons x xs ih =>
    by_cases hc : x.updated_at ≤ p.updated_at
    · simp [insertDesc, hc]
    · simp only [insertDesc, hc, if_false]
      exact (ih.cons x).trans (List.Perm.swap p x xs)

theorem perm_sortUpdatedDesc (l : List Prompt) :
    List.Perm (sortUpdatedDesc l) l := by
  induction l with
  | nil => exact List.Perm.refl _
  | cons x xs ih => exact (perm_insertDesc x _).trans (ih.cons x)

theorem sorted_insertDesc (p : Prompt) (l : List Prompt)
    (h : sortedByUpdatedDesc l) : sortedByUpdatedDesc (insertDesc p l) := by
  induction l with
  | nil => simp [insertDesc, sortedByUpdatedDesc]
  | cons x xs ih =>
    rcases List.pairwise_cons.1 h with ⟨hx, hxs⟩
    by_cases hc : x.updated_at ≤ p.updated_at
    · simp only [insertDesc, hc, if_true]
      refine List.pairwise_cons.2 ⟨?_, h⟩
      intro y hy
      rcases List.mem_cons.1 hy with rfl | hy
      · exact hc
      · exact le_trans (hx y hy) hc
    · simp only [insertDesc, hc, if_false]
      refine List.pairwise_cons.2 ⟨?_, ih hxs⟩
      intro y hy
      rcases (mem_insertDesc p y xs).1 hy with rfl | hy
      · exact le_of_not_le hc
      · exact hx y hy

theorem sorted_sortUpdatedDesc (l : List Prompt) :
    sortedByUpdatedDesc (sortUpdatedDesc l) := by
  induction l with
  | nil => exact List.Pairwise.nil
  | cons x xs ih => exact sorted_insertDesc x _ ih

theorem mem_sortUpdatedDesc (a : Prompt) (l : List Prompt) :
    a ∈ sortUpdatedDesc l ↔ a ∈ l :=
  (perm_sortUpdatedDesc l).mem_iff

theorem nodup_sortUpdatedDesc (l : List Prompt) (h : l.Nodup) :
    (sortUpdatedDesc l).Nodup :=
  ((perm_sortUpdatedDesc l).nodup_iff).2 h

theorem toLower_wild_aux (c : Char) (hg : 65 ≤ c.toNat) (hg2 : c.toNat ≤ 90)
    (d : Char) (hdlt : d.toNat < 97) (h : Char.ofNat (c.toNat + 32) = d) :
    False := by
  set m := c.toNat with hm
  interval_cases m <;> exact absurd (h.symm ▸ hdlt) (by decide)

/-- ASCII case folding can only produce a character of code below 97 by
leaving it unchanged; in particular it neither creates nor destroys the
SQL wildcard characters `%` (37) and `_` (95). -/
theorem toLower_ne_wild (c : Char) (d : Char) (hdlt : d.toNat < 97)
    (h : c.toLower = d) : c = d := by
  unfold Char.toLower at h
  simp only at h
  split at h
  next hg => exact (toLower_wild_aux c hg.1 hg.2 d hdlt h).elim
  next => exact h

theorem startsWithList_nil (t : List Char) :
    startsWithList t [] = t.isEmpty := by
  cases t <;> rfl

theorem likeMatchAux_pct_nil (hs : List Char) :
    likeMatchAux (likeMatch []) hs = true := by
  induction hs with
  | nil => rfl
  | cons h t ih => simp [likeMatchAux, ih]

theorem likeMatch_lit (t : List Char) (ht : ∀ c ∈ t, c ≠ '%' ∧ c ≠ '_') :
    ∀ hs, likeMatch (t ++ ['%']) hs = startsWithList t hs := by
  induction t with
  | nil =>
    intro hs
    simp only [List.nil_append, startsWithList]
    show likeMatchAux (likeMatch []) hs = true
    exact likeMatchAux_pct_nil hs
  | cons c t' ih =>
    intro hs
    have hc := ht c (by simp)
    rw [List.cons_append]
    show (if c = '%' then _ else _) = _
    rw [if_neg hc.1]
    cases hs with
    | nil => rfl
    | cons h hs2 =>
      have ih2 := ih (fun a ha => ht a (by simp [ha])) hs2
      simp [startsWithList, if_neg hc.2, ih2]

theorem likeMatch_sub (t : List Char) (ht : ∀ c ∈ t, c ≠ '%' ∧ c ≠ '_') :
    ∀ hs, likeMatch ('%' :: (t ++ ['%'])) hs = isSubOf t hs := by
  intro hs
  induction hs with
  | nil =>
    show likeMatchAux (likeMatch (t ++ ['%'])) [] = _
    show likeMatch (t ++ ['%']) [] = _
    rw [likeMatch_lit t ht, startsWithList_nil]
    rfl
  | cons h hs2 ih =>
    show likeMatchAux (likeMatch (t ++ ['%'])) (h :: hs2) = _
    have ihx : likeMatchAux (likeMatch (t ++ ['%'])) hs2 = isSubOf t hs2 := ih
    simp only [likeMatchAux, ihx, likeMatch_lit t ht]
    rfl

theorem lowerList_no_wild (q : String) (hq : noWildcard q = true) :
    ∀ c ∈ lowerList q.toList, c ≠ '%' ∧ c ≠ '_' := by
  intro c hc
  rcases List.mem_map.1 hc with ⟨c0, hc0, rfl⟩
  have h0 : (decide (c0 ≠ '%') && decide (c0 ≠ '_')) = true :=
    List.all_eq_true.1 hq c0 hc0
  have h1 : c0 ≠ '%' := by simpa using (Bool.and_elim_left h0)
  have h2 : c0 ≠ '_' := by simpa using (Bool.and_elim_right h0)
  constructor
  · intro hEq
    exact h1 (toLower_ne_wild c0 '%' (by decide) hEq)
  · intro hEq
    exact h2 (toLower_ne_wild c0 '_' (by decide) hEq)

/-- For a wildcard-free search term, `ILIKE '%q%'` is exactly
case-insensitive substring containment. -/
theorem ilike_eq_substrCI (q hay : String) (hq : noWildcard q = true) :
    ilikeContains q hay = substrCI q hay := by
  unfold ilikeContains substrCI
  exact likeMatch_sub (lowerList q.toList) (lowerList_no_wild q hq) _

theorem cleanTok_allowed (t : Tok) : (cleanTok t).all tokAllowed = true := by
  cases t with
  | startTag n attrs =>
    by_cases hn : ALLOWED_TAGS.contains n <;> simp [cleanTok, tokAllowed, hn]
  | endTag n =>
    by_cases hn : ALLOWED_TAGS.contains n <;> simp [cleanTok, tokAllowed, hn]
  | text s => simp [cleanTok, tokAllowed]

theorem clean_allowed (ts : List Tok) : (clean ts).all tokAllowed = true := by
  induction ts with
  | nil => rfl
  | cons t ts ih => simp [clean, List.all_append, cleanTok_allowed, ih]

/-! ## Claim theorems -/

/-- C1: sanitisation — the rendered token stream of every markdown input
consists exclusively of text nodes and allow-listed elements, and on the
input `"**bold** <script>alert(1)</script>"` the rendered HTML carries the
emphasis markup `<strong>bold</strong>` while the `<script>` element is
removed outright (only its inert text content survives, and no `<script`
or `</script` markup occurs in the output). -/
theorem claim1_render_markdown_sanitizes :
    (∀ s : String, (renderToks s).all tokAllowed = true) ∧
    render_markdown (some "**bold** <script>alert(1)</script>") =
      "<p><strong>bold</strong> alert(1)</p>\n" ∧
    containsStr (render_markdown (some "**bold** <script>alert(1)</script>"))
      "<strong>bold</strong>" = true ∧
    containsStr (render_markdown (some "**bold** <script>alert(1)</script>"))
      "<script" = false ∧
    containsStr (render_markdown (some "**bold** <script>alert(1)</script>"))
      "</script" = false :=
  ⟨fun _ => clean_allowed _, by decide, by decide, by decide, by decide⟩

/-- C2 counterexample: with the store `dbU` (one prompt titled "x" with
content "y" and no notes) and the search term `"_"`, `get_prompts` returns
the prompt although `"_"` is not a case-insensitive substring of its title,
its content, or any note — the SQL `LIKE` wildcard `_` matches any single
character, so the claim's substring characterisation of the result set is
false as stated. -/
theorem claim2_search_cex :
    get_prompts dbU (some "_") = [⟨1, "x", "y", 0, 0⟩] ∧
    specSearchMatches dbU "_" ⟨1, "x", "y", 0, 0⟩ = false := by
  exact ⟨by decide, by decide⟩

/-- C2 (amended): for a non-empty search term free of the SQL `LIKE`
wildcard characters `%` and `_`, the list-prompts operation returns
exactly the prompts whose title, content, or some attached note's content
contains the term as a case-insensitive substring, each exactly once,
ordered by updated-at descending; with no search term it returns all
prompts in that order. -/
theorem claim2_search_characterisation (db : DB) (q : String) (h : WF db)
    (hq1 : q ≠ "") (hq2 : noWildcard q = true) :
    ((∀ p, p ∈ get_prompts db none ↔ p ∈ db.prompts) ∧
      sortedByUpdatedDesc (get_prompts db none) ∧
      (get_prompts db none).Nodup) ∧
    ((∀ p, p ∈ get_prompts db (some q) ↔
        p ∈ db.prompts ∧ specSearchMatches db q p = true) ∧
      sortedByUpdatedDesc (get_prompts db (some q)) ∧
      (get_prompts db (some q)).Nodup) := by
  have hnodup : db.prompts.Nodup := List.Nodup.of_map _ h.1
  have hiq : ∀ hay, ilikeContains q hay = substrCI q hay :=
    fun hay => ilike_eq_substrCI q hay hq2
  constructor
  · refine ⟨fun p => ?_, sorted_sortUpdatedDesc _, nodup_sortUpdatedDesc _ hnodup⟩
    exact mem_sortUpdatedDesc p db.prompts
  · have hbase : get_prompts db (some q) =
        sortUpdatedDesc (db.prompts.filter (fun p => specSearchMatches db q p)) := by
      simp only [get_prompts, if_neg hq1]
      congr 1
      apply List.filter_congr
      intro p _
      simp only [hiq, specSearchMatches]
    rw [hbase]
    refine ⟨fun p => ?_, sorted_sortUpdatedDesc _,
      nodup_sortUpdatedDesc _ (List.Nodup.filter _ hnodup)⟩
    rw [mem_sortUpdatedDesc, List.mem_filter]

theorem claim2_search_characterisation_witness :
    ((∀ p, p ∈ get_prompts dbEx none ↔ p ∈ dbEx.prompts) ∧
      sortedByUpdatedDesc (get_prompts dbEx none) ∧
      (get_prompts dbEx none).Nodup) ∧
    ((∀ p, p ∈ get_prompts dbEx (some "note") ↔
        p ∈ dbEx.prompts ∧ specSearchMatches dbEx "note" p = true) ∧
      sortedByUpdatedDesc (get_prompts dbEx (some "note")) ∧
      (get_prompts dbEx (some "note")).Nodup) :=
  claim2_search_characterisation dbEx "note" (by decide) (by decide) (by decide)

/-- C4 counterexample: the two timestamp column defaults of `models.py`
each evaluate `datetime.utcnow()` on their own at INSERT time, so the two
readings are distinct instants and the claimed equality
`created_at = updated_at` fails on a freshly created prompt. -/
theorem claim4_create_cex :
    ¬ (create_prompt dbEx "T" "C").1.created_at =
        (create_prompt dbEx "T" "C").1.updated_at := by
  decide

/-- C4 (amended): creating a prompt and fetching it by the returned id
yields a record with exactly the given title and content; its created-at
and updated-at are two successive `utcnow()` readings taken in column
order during the INSERT, so created-at ≤ updated-at, but their equality is
not guaranteed. -/
theorem claim4_create_then_get (db : DB) (t c : String) (h : WF db) :
    (create_prompt db t c).1.title = t ∧
    (create_prompt db t c).1.content = c ∧
    (create_prompt db t c).1.created_at ≤ (create_prompt db t c).1.updated_at ∧
    get_prompt (create_prompt db t c).2 (create_prompt db t c).1.id =
      some (create_prompt db t c).1 := by
  refine ⟨rfl, rfl, Nat.le_succ db.clock, ?_⟩
  simp only [create_prompt, get_prompt, List.find?_append]
  have hnone : db.prompts.find? (fun p => p.id == db.nextPromptId) = none := by
    apply List.find?_eq_none.2
    intro x hx
    have := (h.2.2.1 x hx).1
    simp [Nat.ne_of_lt this]
  simp [hnone]

theorem claim4_create_then_get_witness :
    (create_prompt dbEx "T" "C").1.title = "T" ∧
    (create_prompt dbEx "T" "C").1.content = "C" ∧
    (create_prompt dbEx "T" "C").1.created_at ≤
      (create_prompt dbEx "T" "C").1.updated_at ∧
    get_prompt (create_prompt dbEx "T" "C").2 (create_prompt dbEx "T" "C").1.id =
      some (create_prompt dbEx "T" "C").1 :=
  claim4_create_then_get dbEx "T" "C" (by decide)

/-- C5: updating an existing prompt replaces title and content wholesale,
refreshes updated-at to a value at least the previous one, and leaves the
identifier and created-at unchanged. -/
theorem claim5_update_semantics (db : DB) (pid : Nat) (p : Prompt)
    (t c : String) (h : WF db) (hp : get_prompt db pid = some p) :
    ∃ p2 : Prompt,
      (update_prompt db pid t c).1 = some p2 ∧
      p2.title = t ∧ p2.content = c ∧
      p2.id = p.id ∧ p2.created_at = p.created_at ∧
      p.updated_at ≤ p2.updated_at := by
  have hp' : db.prompts.find? (fun q => q.id == pid) = some p := hp
  have hpred := List.find?_some hp'
  have hmem : p ∈ db.prompts := List.mem_of_find?_eq_some hp'
  have hlt : p.updated_at < db.clock := (h.2.2.1 p hmem).2.2
  refine ⟨{ p with title := t, content := c, updated_at := db.clock }, ?_,
    rfl, rfl, rfl, rfl, le_of_lt hlt⟩
  simp only [update_prompt, hp]
  have hmap := find?_map_id_pres
    (fun q : Prompt => if q.id == pid then
      { q with title := t, content := c, updated_at := db.clock } else q)
    (fun q => by by_cases hq : q.id == pid <;> simp [hq]) pid db.prompts
  simp only [get_prompt]
  rw [hmap, hp']
  simp [hpred]
  intro hne
  exact absurd (by simpa using hpred) hne

theorem claim5_update_semantics_witness :
    ∃ p2 : Prompt,
      (update_prompt dbEx 1 "nt" "nc").1 = some p2 ∧
      p2.title = "nt" ∧ p2.content = "nc" ∧
      p2.id = (⟨1, "Alpha", "hello world", 1, 2⟩ : Prompt).id ∧
      p2.created_at = (⟨1, "Alpha", "hello world", 1, 2⟩ : Prompt).created_at ∧
      (⟨1, "Alpha", "hello world", 1, 2⟩ : Prompt).updated_at ≤ p2.updated_at :=
  claim5_update_semantics dbEx 1 ⟨1, "Alpha", "hello world", 1, 2⟩ "nt" "nc"
    (by decide) (by decide)

/-- C6: every data-access operation given an id absent from the store
returns the not-found indicator (`none` / `false`) and leaves the store
unchanged. -/
theorem claim6_missing_id_not_found (db : DB) (pid nid : Nat) (t c s : String)
    (hp : get_prompt db pid = none) (hn : get_note db nid = none) :
    get_prompt db pid = none ∧
    update_prompt db pid t c = (none, db) ∧
    delete_prompt db pid = (false, db) ∧
    get_note db nid = none ∧
    update_note db nid s = (none, db) ∧
    delete_note db nid = (false, db) := by
  refine ⟨hp, ?_, ?_, hn, ?_, ?_⟩ <;>
    simp [update_prompt, delete_prompt, update_note, delete_note, hp, hn]

theorem claim6_missing_id_not_found_witness :
    get_prompt dbEx 99 = none ∧
    update_prompt dbEx 99 "t" "c" = (none, dbEx) ∧
    delete_prompt dbEx 99 = (false, dbEx) ∧
    get_note dbEx 99 = none ∧
    update_note dbEx 99 "s" = (none, dbEx) ∧
    delete_note dbEx 99 = (false, dbEx) :=
  claim6_missing_id_not_found dbEx 99 99 "t" "c" "s" (by decide) (by decide)

theorem notesRef_create_prompt (db : DB) (t c : String) (h : NotesRef db) :
    NotesRef (create_prompt db t c).2 := by
  intro n hn
  rcases h n hn with ⟨p, hp, hid⟩
  exact ⟨p, List.mem_append_left _ hp, hid⟩

theorem notesRef_update_prompt (db : DB) (pid : Nat) (t c : String)
    (h : NotesRef db) : NotesRef (update_prompt db pid t c).2 := by
  cases hg : get_prompt db pid with
  | none => simp only [update_prompt, hg]; exact h
  | some p0 =>
    simp only [update_prompt, hg]
    intro n hn
    rcases h n hn with ⟨p, hp, hid⟩
    refine ⟨(fun q : Prompt => if q.id == pid then
      { q with title := t, content := c, updated_at := db.clock } else q) p,
      List.mem_map_of_mem _ hp, ?_⟩
    by_cases hq : (p.id == pid) = true <;> simp only [hq] <;> simp <;>
      exact hid

theorem notesRef_delete_prompt (db : DB) (pid : Nat) (h : NotesRef db) :
    NotesRef (delete_prompt db pid).2 := by
  cases hg : get_prompt db pid with
  | none => simp only [delete_prompt, hg]; exact h
  | some p0 =>
    simp only [delete_prompt, hg]
    intro n hn
    rw [List.mem_filter] at hn
    rcases h n hn.1 with ⟨p, hp, hid⟩
    refine ⟨p, List.mem_filter.2 ⟨hp, ?_⟩, hid⟩
    rw [hid]
    exact hn.2

theorem notesRef_create_note (db : DB) (pid : Nat) (c : String)
    (h : NotesRef db) (hp : ∃ pr ∈ db.prompts, pr.id = pid) :
    NotesRef (create_note db pid c).2 := by
  intro n hn
  rcases List.mem_append.1 hn with hn | hn
  · exact h n hn
  · rcases hp with ⟨pr, hpr, hid⟩
    have : n = ⟨db.nextNoteId, pid, c, db.clock, db.clock + 1⟩ := by
      simpa using hn
    subst this
    exact ⟨pr, hpr, hid⟩

theorem notesRef_ep_create_note (db : DB) (pid : Nat) (c : String)
    (h : NotesRef db) : NotesRef (ep_create_note db pid c) := by
  cases hg : get_prompt db pid with
  | none => simp only [ep_create_note, hg]; exact h
  | some p0 =>
    simp only [ep_create_note, hg]
    have hg' : db.prompts.find? (fun q => q.id == pid) = some p0 := hg
    refine notesRef_create_note db pid c h
      ⟨p0, List.mem_of_find?_eq_some hg', ?_⟩
    simpa using List.find?_some hg'

theorem notesRef_update_note (db : DB) (nid : Nat) (c : String)
    (h : NotesRef db) : NotesRef (update_note db nid c).2 := by
  cases hg : get_note db nid with
  | none => simp only [update_note, hg]; exact h
  | some n0 =>
    simp only [update_note, hg]
    intro n hn
    rcases List.mem_map.1 hn with ⟨m, hm, rfl⟩
    rcases h m hm with ⟨p, hp, hid⟩
    refine ⟨p, hp, ?_⟩
    by_cases hq : (m.id == nid) = true <;> simp [hq, hid]

theorem notesRef_delete_note (db : DB) (nid : Nat) (h : NotesRef db) :
    NotesRef (delete_note db nid).2 := by
  cases hg : get_note db nid with
  | none => simp only [delete_note, hg]; exact h
  | some n0 =>
    simp only [delete_note, hg]
    intro n hn
    exact h n (List.mem_filter.1 hn).1

theorem importNoteStep_prompts (pid : Nat) (db : DB) (e : Json) :
    (importNoteStep pid db e).prompts = db.prompts := by
  cases e with
  | obj nfields =>
    cases hl : nfields.lookup "content" with
    | none => simp [importNoteStep, hl]
    | some j => cases j <;> simp [importNoteStep, hl, create_note]
  | null => rfl
  | bool b => rfl
  | num n => rfl
  | str s => rfl
  | arr xs => rfl

theorem notesRef_importNoteStep (pid : Nat) (db : DB) (e : Json)
    (h : NotesRef db) (hp : ∃ pr ∈ db.prompts, pr.id = pid) :
    NotesRef (importNoteStep pid db e) := by
  cases e with
  | obj nfields =>
    cases hl : nfields.lookup "content" with
    | none => simp only [importNoteStep, hl]; exact h
    | some j =>
      cases j <;> simp only [importNoteStep, hl] <;>
        first
          | exact h
          | exact notesRef_create_note db pid _ h hp
  | null => exact h
  | bool b => exact h
  | num n => exact h
  | str s => exact h
  | arr xs => exact h

theorem notesRef_foldl_import (pid : Nat) (entries : List Json) (db1 : DB)
    (h : NotesRef db1) (hp : ∃ pr ∈ db1.prompts, pr.id = pid) :
    NotesRef (entries.foldl (importNoteStep pid) db1) := by
  induction entries generalizing db1 with
  | nil => exact h
  | cons e es ih =>
    simp only [List.foldl_cons]
    refine ih (importNoteStep pid db1 e)
      (notesRef_importNoteStep pid db1 e h hp) ?_
    rw [importNoteStep_prompts]
    exact hp

theorem notesRef_doImport (db : DB) (data : Json) (h : NotesRef db) :
    NotesRef (doImport db data).2 := by
  cases data with
  | obj fields =>
    show NotesRef (if ((fields.lookup "title").isNone ||
        (fields.lookup "content").isNone) = true then
          (some "Invalid JSON: title and content are required", db)
        else
          match fields.lookup "title", fields.lookup "content" with
          | some (.str title), some (.str content) =>
            match create_prompt db title content with
            | (p, db1) =>
              (none, match fields.lookup "notes" with
                | some (.arr entries) => entries.foldl (importNoteStep p.id) db1
                | _ => db1)
          | _, _ => (some "Error importing prompt: validation failed", db)).2
    by_cases hc : ((fields.lookup "title").isNone ||
        (fields.lookup "content").isNone) = true
    · rw [if_pos hc]; exact h
    · rw [if_neg hc]
      cases ht : fields.lookup "title" with
      | none => exact h
      | some jt =>
        cases jt <;> try exact h
        next t =>
          cases hcv : fields.lookup "content" with
          | none => exact h
          | some jc =>
            cases jc <;> try exact h
            next c =>
              show NotesRef (match fields.lookup "notes" with
                | some (.arr entries) =>
                    entries.foldl (importNoteStep (create_prompt db t c).1.id)
                      (create_prompt db t c).2
                | _ => (create_prompt db t c).2)
              have hbase : NotesRef (create_prompt db t c).2 :=
                notesRef_create_prompt db t c h
              have hpr : ∃ pr ∈ (create_prompt db t c).2.prompts,
                  pr.id = (create_prompt db t c).1.id :=
                ⟨(create_prompt db t c).1,
                  List.mem_append_right _ (by simp [create_prompt]), rfl⟩
              cases hn : fields.lookup "notes" with
              | none => exact hbase
              | some jn =>
                cases jn <;> try exact hbase
                next entries =>
                  exact notesRef_foldl_import _ entries _ hbase hpr
  | null => exact h
  | bool b => exact h
  | num n => exact h
  | str s => exact h
  | arr xs => exact h

theorem reachable_notesRef (db : DB) (hr : Reachable db) : NotesRef db := by
  induction hr with
  | empty => intro n hn; simp [DB.empty] at hn
  | createPrompt db t c _ ih => exact notesRef_create_prompt db t c ih
  | updatePrompt db pid t c _ ih => exact notesRef_update_prompt db pid t c ih
  | deletePrompt db pid _ ih => exact notesRef_delete_prompt db pid ih
  | createNote db pid c _ ih => exact notesRef_ep_create_note db pid c ih
  | updateNote db nid c _ ih => exact notesRef_update_note db nid c ih
  | deleteNote db nid _ ih => exact notesRef_delete_note db nid ih
  | importDoc db data _ ih => exact notesRef_doImport db data ih

/-- C3: deleting an existing prompt returns `True` and removes the prompt
together with every one of its notes (none remains retrievable by id);
and in every state reachable through the application's endpoints, every
note references an existing prompt. -/
theorem claim3_cascade_delete (db : DB) (pid : Nat) (p : Prompt)
    (hwf : WF db) (hp : get_prompt db pid = some p) :
    ((delete_prompt db pid).1 = true ∧
     get_prompt (delete_prompt db pid).2 pid = none ∧
     (∀ n ∈ db.notes, n.prompt_id = pid →
        get_note (delete_prompt db pid).2 n.id = none)) ∧
    (∀ db2, Reachable db2 → NotesRef db2) := by
  have hp' : db.prompts.find? (fun q => q.id == pid) = some p := hp
  refine ⟨⟨?_, ?_, ?_⟩, fun db2 h2 => reachable_notesRef db2 h2⟩
  · simp [delete_prompt, get_prompt, hp']
  · simp only [delete_prompt, get_prompt, hp']
    apply List.find?_eq_none.2
    intro x hx
    rw [List.mem_filter] at hx
    simpa using hx.2
  · intro n hn hnp
    simp only [delete_prompt, get_prompt, get_note, hp']
    apply List.find?_eq_none.2
    intro m hm
    rw [List.mem_filter] at hm
    intro hmid
    have hmn : m = n :=
      List.inj_on_of_nodup_map hwf.2.1 hm.1 hn (by simpa using hmid)
    have := hm.2
    rw [hmn, hnp] at this
    simp at this

theorem claim3_cascade_delete_witness :
    ((delete_prompt dbEx 1).1 = true ∧
     get_prompt (delete_prompt dbEx 1).2 1 = none ∧
     (∀ n ∈ dbEx.notes, n.prompt_id = 1 →
        get_note (delete_prompt dbEx 1).2 n.id = none)) ∧
    (∀ db2, Reachable db2 → NotesRef db2) :=
  claim3_cascade_delete dbEx 1 ⟨1, "Alpha", "hello world", 1, 2⟩
    (by decide) (by decide)

/-- C7: an import document that is a JSON object lacking the `title` field
or the `content` field yields the 400 validation error message and leaves
the store unchanged (no prompt and no note is created: the field check
precedes every write). -/
theorem claim7_import_missing_fields (db : DB) (fields : List (String × Json))
    (h : fields.lookup "title" = none ∨ fields.lookup "content" = none) :
    doImport db (.obj fields) =
      (some "Invalid JSON: title and content are required", db) := by
  unfold doImport
  rcases h with h | h <;> simp [h]

theorem claim7_import_missing_fields_witness :
    doImport dbEx (.obj [("title", Json.str "only a title")]) =
      (some "Invalid JSON: title and content are required", dbEx) :=
  claim7_import_missing_fields dbEx [("title", Json.str "only a title")]
    (Or.inr rfl)

/-- C8: exporting a prompt that owns exactly two notes and importing the
exported JSON document succeeds (no error) and creates a new prompt —
under the next autoincrement id — whose title and content equal the
original's, and whose attached notes' contents are exactly the two
original notes' contents (identifiers and timestamps are server-assigned
afresh). -/
theorem claim8_roundtrip (db : DB) (pid : Nat) (p : Prompt) (n1 n2 : Note)
    (j : Json) (h : WF db) (hp : get_prompt db pid = some p)
    (hnotes : notesOf db pid = [n1, n2])
    (hj : export_prompt_json db pid = some j) :
    (doImport db j).1 = none ∧
    ∃ q : Prompt,
      get_prompt (doImport db j).2 db.nextPromptId = some q ∧
      q.title = p.title ∧ q.content = p.content ∧
      (notesOf (doImport db j).2 q.id).map (fun n => n.content) =
        [n1.content, n2.content] := by
  have hp' : db.prompts.find? (fun q => q.id == pid) = some p := hp
  have hpid : p.id = pid := by simpa using List.find?_some hp'
  have hj' : j = Json.obj
      [("title", .str p.title), ("content", .str p.content),
       ("created_at", .str (toString p.created_at)),
       ("updated_at", .str (toString p.updated_at)),
       ("notes", .arr
         [.obj [("content", .str n1.content),
                ("created_at", .str (toString n1.created_at)),
                ("updated_at", .str (toString n1.updated_at))],
          .obj [("content", .str n2.content),
                ("created_at", .str (toString n2.created_at)),
                ("updated_at", .str (toString n2.updated_at))]])] := by
    rw [export_prompt_json, hp] at hj
    simp only [Option.map_some', Option.map_some, hpid, hnotes,
      List.map_cons, List.map_nil, Option.some.injEq] at hj
    exact hj.symm
  subst hj'
  set q : Prompt :=
    ⟨db.nextPromptId, p.title, p.content, db.clock, db.clock + 1⟩
    with hq
  set m1 : Note :=
    ⟨db.nextNoteId, db.nextPromptId, n1.content, db.clock + 2, db.clock + 2 + 1⟩
    with hm1
  set m2 : Note :=
    ⟨db.nextNoteId + 1, db.nextPromptId, n2.content, db.clock + 2 + 2,
      db.clock + 2 + 2 + 1⟩
    with hm2
  have hdb3 : (doImport db (Json.obj
      [("title", .str p.title), ("content", .str p.content),
       ("created_at", .str (toString p.created_at)),
       ("updated_at", .str (toString p.updated_at)),
       ("notes", .arr
         [.obj [("content", .str n1.content),
                ("created_at", .str (toString n1.created_at)),
                ("updated_at", .str (toString n1.updated_at))],
          .obj [("content", .str n2.content),
                ("created_at", .str (toString n2.created_at)),
                ("updated_at", .str (toString n2.updated_at))]])])) =
      (none, { db with
                 prompts := db.prompts ++ [q],
                 notes := (db.notes ++ [m1]) ++ [m2],
                 nextPromptId := db.nextPromptId + 1,
                 nextNoteId := db.nextNoteId + 1 + 1,
                 clock := db.clock + 2 + 2 + 2 }) := rfl
  rw [hdb3]
  refine ⟨rfl, q, ?_, rfl, rfl, ?_⟩
  · show (db.prompts ++ [q]).find? (fun x => x.id == db.nextPromptId) = some q
    rw [List.find?_append]
    have hnone : db.prompts.find? (fun x => x.id == db.nextPromptId) = none := by
      apply List.find?_eq_none.2
      intro x hx
      have := (h.2.2.1 x hx).1
      simp [Nat.ne_of_lt this]
    simp [hnone]
  · show ((((db.notes ++ [m1]) ++ [m2]).filter
        (fun n => n.prompt_id == q.id)).map (fun n => n.content)) =
      [n1.content, n2.content]
    have hold : db.notes.filter (fun n => n.prompt_id == q.id) = [] := by
      apply List.filter_eq_nil_iff.2
      intro n hn
      rcases h.2.2.2.2 n hn with ⟨pr, hpr, hprid⟩
      have hlt : pr.id < db.nextPromptId := (h.2.2.1 pr hpr).1
      rw [hq]
      simp only [← hprid]
      simp [Nat.ne_of_lt hlt]
    rw [List.filter_append, List.filter_append, hold]
    simp [hq, hm1, hm2]

theorem claim8_roundtrip_witness :
    (doImport dbEx jEx).1 = none ∧
    ∃ q : Prompt,
      get_prompt (doImport dbEx jEx).2 dbEx.nextPromptId = some q ∧
      q.title = (⟨1, "Alpha", "hello world", 1, 2⟩ : Prompt).title ∧
      q.content = (⟨1, "Alpha", "hello world", 1, 2⟩ : Prompt).content ∧
      (notesOf (doImport dbEx jEx).2 q.id).map (fun n => n.content) =
        [(⟨1, 1, "note one", 3, 3⟩ : Note).content,
         (⟨2, 1, "note two", 4, 4⟩ : Note).content] :=
  claim8_roundtrip dbEx 1 ⟨1, "Alpha", "hello world", 1, 2⟩
    ⟨1, 1, "note one", 3, 3⟩ ⟨2, 1, "note two", 4, 4⟩ jEx
    (by decide) (by decide) (by decide) (by rfl)

/-- C9 counterexample: the claim asserts the HTTP surface includes a
`GET /health` endpoint, but the application's route table contains no such
route. -/
theorem claim9_health_cex : ("GET", "/health") ∉ appRoutes := by
  decide

/-- C9 (amended): the HTTP surface includes no `/health` route at all —
the application registers no liveness-probe endpoint. -/
theorem claim9_no_health_route :
    appRoutes.all (fun r => r.2 ≠ "/health") = true := by
  decide

/-- C10 counterexample: for the whitespace-only query `" "`, the `/search`
handler passes `some ""` (the stripped string), not `None`, to the
data-access layer. -/
theorem claim10_blank_cex : searchQueryOf " " = some "" := by
  decide

/-- C10 (amended): a `/search` request whose `q` is absent/empty (the
handler passes `None`) or whitespace-only (the handler passes the stripped
empty string, which the data-access layer's falsiness test likewise treats
as no term) returns the full unfiltered prompt list ordered by updated-at
descending. -/
theorem claim10_blank_query (db : DB) (q : String) (hq : pyStrip q = "") :
    searchEndpoint db q = sortUpdatedDesc db.prompts ∧
    (∀ p, p ∈ searchEndpoint db q ↔ p ∈ db.prompts) ∧
    sortedByUpdatedDesc (searchEndpoint db q) := by
  have he : searchEndpoint db q = sortUpdatedDesc db.prompts := by
    unfold searchEndpoint searchQueryOf
    by_cases h0 : q = ""
    · simp [h0, get_prompts]
    · simp [h0, hq, get_prompts]
  exact ⟨he, fun p => by rw [he]; exact mem_sortUpdatedDesc p db.prompts,
    he ▸ sorted_sortUpdatedDesc _⟩

theorem claim10_blank_query_witness :
    searchEndpoint dbEx " " = sortUpdatedDesc dbEx.prompts ∧
    (∀ p, p ∈ searchEndpoint dbEx " " ↔ p ∈ dbEx.prompts) ∧
    sortedByUpdatedDesc (searchEndpoint dbEx " ") :=
  claim10_blank_query dbEx " " (by decide)

end PromptLib
